import Mathlib

/-!
# A verification model of `DynamicEnvironmentMapManager`

This file embeds the multi-frame environment-map pipeline of
`packages/engine/Source/Scene/DynamicEnvironmentMapManager.js` as executable
Lean definitions and proves properties of its sequencer, invalidation
controller, stage setup functions and resource lifecycle.

Modelling conventions:
* JS numbers are rationals (`ℚ`); texture dimensions follow the source's
  floating-point halving (`width /= 2`) exactly.
* A `ComputeCommand` object is heap-allocated in JS and aliased between the
  manager's per-stage slot arrays and the frame's command list, and its
  `canceled` field is mutated through those aliases.  We model the heap as
  `store : List Command` (the list of every command ever constructed, its
  index being its identity) and the slot arrays as lists of optional indices.
* GPU-side texture contents, shader sources and samplers are tracked only by
  presence (`Bool`) plus an allocation log, which is what the lifecycle
  properties are about.
* `update` in the source returns `true`, `false`, or falls off the end
  (JS `undefined`, which is falsy).  Callers consume the result as a boolean,
  so the embedding returns `false` for the implicit fall-through return.
-/

namespace DynamicEnvironmentMapManager

/-- JS `Cartesian3`, components as rationals. -/
structure Cartesian3 where
  x : ℚ
  y : ℚ
  z : ℚ
deriving Repr, DecidableEq

/-- The constant `CesiumMath.EPSILON8 = 0.00000001`, the tolerance used by the position setter. -/
def EPSILON8 : ℚ := 1 / 100000000

/-- Modelled from the spec: `Cartesian3.equalsEpsilon` (the `Cartesian3` module is not
part of the excerpt).  Position comparison uses an (absolute, componentwise) epsilon
tolerance; an `undefined` operand compares equal only to `undefined`
(JS `left === right` before the definedness checks). -/
def cartesian3EqualsEpsilon : Option Cartesian3 → Option Cartesian3 → ℚ → Bool
  | none, none, _ => true
  | some l, some r, eps =>
      decide (|l.x - r.x| ≤ eps) && decide (|l.y - r.y| ≤ eps) &&
        decide (|l.z - r.z| ≤ eps)
  | _, _, _ => false

/-- Squared Euclidean magnitude of the difference of two positions; used to state
the `|p1 − p2| < ε` hypotheses without square roots. -/
def magnitudeSquaredDiff (p q : Cartesian3) : ℚ :=
  (p.x - q.x) ^ 2 + (p.y - q.y) ^ 2 + (p.z - q.z) ^ 2

/-- Modelled from the spec: `Cartesian3.unpack` (not part of the excerpt) reads three
consecutive channels starting at `startingIndex` from flat readback data. -/
def unpackCartesian3 (data : ℕ → ℚ) (startingIndex : ℕ) : Cartesian3 :=
  ⟨data startingIndex, data (startingIndex + 1), data (startingIndex + 2)⟩

/-- Modelled from the spec: `JulianDate.equalsEpsilon` (not part of the excerpt) —
times (here: seconds as rationals) are equal within `eps` iff the absolute seconds
difference is at most `eps`. -/
def julianDateEqualsEpsilon (left right eps : ℚ) : Bool :=
  decide (|left - right| ≤ eps)

/-- The identity of a compute command: which stage produced it and with which
face / mip level. -/
inductive CmdKind where
  | radiance (faceIndex : ℕ)
  | convolution (level : ℕ) (faceIndex : ℕ)
  | irradiance
deriving Repr, DecidableEq

/-- A `ComputeCommand` as far as this module observes it: its identity, the
uniform roughness (meaningful for convolution commands), the output texture's
dimensions, the `persists` flag and the mutable `canceled` flag. -/
structure Command where
  kind : CmdKind
  roughness : ℚ
  outputWidth : ℚ
  outputHeight : ℚ
  persists : Bool
  canceled : Bool
deriving Repr, DecidableEq

/-- The GPU resources whose allocations the manager caches. -/
inductive ResourceKind where
  | radianceCubeMap
  | radianceMapTexture (i : ℕ)
  | specularMapTexture (i : ℕ)
  | irradianceMapTexture
  | radianceMapFS
  | irradianceMapFS
  | convolveSP
  | va
deriving Repr, DecidableEq

/-- Minification sampler installed on the radiance cube map. -/
inductive SamplerKind where
  | initial
  | linearMipmapLinear
deriving Repr, DecidableEq

/-- The manager's state: every `this._*` field of the source object, the command
heap (`store`), an allocation log, and the `facesCopied` counter that the source
keeps in a closure shared by one `updateSpecularMaps` invocation's callbacks. -/
structure ManagerState where
  position : Option Cartesian3
  radianceCommandsDirty : Bool
  radianceMapDirty : Bool
  convolutionsCommandsDirty : Bool
  irradianceCommandDirty : Bool
  irradianceTextureDirty : Bool
  sphericalHarmonicCoefficientsDirty : Bool
  mipmapLevels : ℕ
  radianceMapComputeCommands : List (Option ℕ)
  convolutionComputeCommands : List (Option ℕ)
  /-- `this._irradianceComputeCommand`: assigned by `updateIrradianceResources`
  and cleared by that command's completion callback. -/
  irradianceComputeCommand : Option ℕ
  /-- `this._irradianceMapComputeCommand`: the distinct field that `_reset` and
  `destroy` read and clear; no function of the source ever assigns a command
  to it. -/
  irradianceMapComputeCommand : Option ℕ
  radianceMapFS : Bool
  irradianceMapFS : Bool
  convolveSP : Bool
  va : Bool
  radianceMapTextures : List Bool
  specularMapTextures : List Bool
  radianceCubeMap : Bool
  radianceCubeMapSampler : SamplerKind
  irradianceMapTexture : Bool
  sphericalHarmonicCoefficients : List (Option Cartesian3)
  lastTime : ℚ
  enabled : Bool
  maximumSecondsDifference : ℚ
  textureDimensions : ℚ × ℚ
  store : List Command
  allocLog : List ResourceKind
  facesCopied : ℕ
deriving Repr, DecidableEq

/-- The constructor `DynamicEnvironmentMapManager(options)` with
`options.mipmapLevels = mipmapLevels` (source default 10). -/
def initialState (mipmapLevels : ℕ) : ManagerState where
  position := none
  radianceCommandsDirty := true
  radianceMapDirty := true
  convolutionsCommandsDirty := false
  irradianceCommandDirty := false
  irradianceTextureDirty := false
  sphericalHarmonicCoefficientsDirty := false
  mipmapLevels := mipmapLevels
  radianceMapComputeCommands := List.replicate 6 none
  convolutionComputeCommands := List.replicate ((mipmapLevels - 1) * 6) none
  irradianceComputeCommand := none
  irradianceMapComputeCommand := none
  radianceMapFS := false
  irradianceMapFS := false
  convolveSP := false
  va := false
  radianceMapTextures := List.replicate 6 false
  specularMapTextures := List.replicate ((mipmapLevels - 1) * 6) false
  radianceCubeMap := false
  radianceCubeMapSampler := SamplerKind.initial
  irradianceMapTexture := false
  sphericalHarmonicCoefficients := List.replicate 9 none
  lastTime := 0
  enabled := true
  maximumSecondsDifference := 60 * 20
  textureDimensions := ((2 : ℚ) ^ (mipmapLevels - 1), (2 : ℚ) ^ (mipmapLevels - 1))
  store := []
  allocLog := []
  facesCopied := 0

/-- Mark the command with the given heap index canceled (`command.canceled = true`). -/
def cancelId (store : List Command) (id : ℕ) : List Command :=
  match store[id]? with
  | some c => store.set id { c with canceled := true }
  | none => store

/-- Walk a slot array, canceling the command held by every non-empty slot. -/
def cancelSlots (store : List Command) (slots : List (Option ℕ)) : List Command :=
  slots.foldl
    (fun st slot =>
      match slot with
      | some id => cancelId st id
      | none => st)
    store

/-- Source `DynamicEnvironmentMapManager.prototype._reset`: cancel the commands held in the
radiance and convolution slot arrays and clear every slot; cancel and clear
`_irradianceMapComputeCommand` if defined (note: the irradiance stage stores its
command in `_irradianceComputeCommand`, a different field, which this function
does not touch); finally rearm the two radiance-stage dirty flags. -/
def reset (s : ManagerState) : ManagerState :=
  let store := cancelSlots s.store s.radianceMapComputeCommands
  let store := cancelSlots store s.convolutionComputeCommands
  let storeAndIrr :=
    match s.irradianceMapComputeCommand with
    | some id => (cancelId store id, (none : Option ℕ))
    | none => (store, s.irradianceMapComputeCommand)
  { s with
    store := storeAndIrr.1
    radianceMapComputeCommands := s.radianceMapComputeCommands.map (fun _ => none)
    convolutionComputeCommands := s.convolutionComputeCommands.map (fun _ => none)
    irradianceMapComputeCommand := storeAndIrr.2
    radianceMapDirty := true
    radianceCommandsDirty := true }

/-- The `position` setter: no-op when the new value is within `EPSILON8` of the
current one; otherwise store the value and `_reset()`. -/
def setPosition (s : ManagerState) (value : Option Cartesian3) : ManagerState :=
  if cartesian3EqualsEpsilon value s.position EPSILON8 then s
  else reset { s with position := value }

/-- One iteration of the cube-face loop of `updateRadianceMap`: lazily allocate the
face's output texture, then build the face's radiance compute command
(`persists: false`, output size = the cube map's dimensions) and store it in the
face's slot.  The atmosphere/ellipsoid uniform values are supplied by external
collaborators and do not feed back into manager state, so they are not tracked. -/
def radianceFaceStep (dims : ℚ × ℚ) (acc : ManagerState × List ℕ) (i : ℕ) :
    ManagerState × List ℕ :=
  let s := acc.1
  let issued := acc.2
  let s :=
    if s.radianceMapTextures.getD i false then s
    else
      { s with
        radianceMapTextures := s.radianceMapTextures.set i true
        allocLog := s.allocLog ++ [ResourceKind.radianceMapTexture i] }
  let cmd : Command :=
    { kind := CmdKind.radiance i, roughness := 0, outputWidth := dims.1,
      outputHeight := dims.2, persists := false, canceled := false }
  let id := s.store.length
  ({ s with
      store := s.store ++ [cmd]
      radianceMapComputeCommands := s.radianceMapComputeCommands.set i (some id) },
    issued ++ [id])

/-- The cube-face loop of `updateRadianceMap` (`for (const face of ...faces())`),
over face indices 0–5. -/
def radianceFaceLoop (dims : ℚ × ℚ) (s : ManagerState) : ManagerState × List ℕ :=
  (List.range 6).foldl (radianceFaceStep dims) (s, [])

/-- Source `updateRadianceMap`: lazily allocate the radiance cube map; if
`_radianceCommandsDirty`, lazily allocate the radiance fragment-shader source, issue
one compute command per cube face, and clear `_radianceCommandsDirty`.  Returns the
new state and the heap indices pushed to `frameState.commandList`. -/
def updateRadianceMap (s : ManagerState) : ManagerState × List ℕ :=
  let s :=
    if s.radianceCubeMap then s
    else
      { s with
        radianceCubeMap := true
        allocLog := s.allocLog ++ [ResourceKind.radianceCubeMap] }
  if s.radianceCommandsDirty then
    let s :=
      if s.radianceMapFS then s
      else
        { s with
          radianceMapFS := true
          allocLog := s.allocLog ++ [ResourceKind.radianceMapFS] }
    let si := radianceFaceLoop s.textureDimensions s
    ({ si.1 with radianceCommandsDirty := false }, si.2)
  else (s, [])

/-- One iteration of the face loop of `updateSpecularMaps`: unconditionally allocate
a fresh output texture into slot `(level − 1) * 6 + faceIndex` of the specular mip
chain, lazily allocate the shared vertex array and convolution shader program, and
build the convolution command (`persists: true`, `u_roughness = level /
(mipmapLevels − 1)`, output size = the current loop width/height). -/
def convFaceStep (mipmapLevels level : ℕ) (width height : ℚ)
    (acc : ManagerState × List ℕ) (faceIndex : ℕ) : ManagerState × List ℕ :=
  let s := acc.1
  let issued := acc.2
  let index := (level - 1) * 6 + faceIndex
  let s :=
    { s with
      specularMapTextures := s.specularMapTextures.set index true
      allocLog := s.allocLog ++ [ResourceKind.specularMapTexture index] }
  let s :=
    if s.va then s
    else { s with va := true, allocLog := s.allocLog ++ [ResourceKind.va] }
  let s :=
    if s.convolveSP then s
    else { s with convolveSP := true, allocLog := s.allocLog ++ [ResourceKind.convolveSP] }
  let cmd : Command :=
    { kind := CmdKind.convolution level faceIndex
      roughness := (level : ℚ) / ((mipmapLevels : ℚ) - 1)
      outputWidth := width, outputHeight := height
      persists := true, canceled := false }
  let id := s.store.length
  ({ s with
      store := s.store ++ [cmd]
      convolutionComputeCommands := s.convolutionComputeCommands.set index (some id) },
    issued ++ [id])

/-- The face loop of `updateSpecularMaps` at one mip level, over face indices
0–5. -/
def convFaceLoop (mipmapLevels level : ℕ) (width height : ℚ)
    (acc : ManagerState × List ℕ) : ManagerState × List ℕ :=
  (List.range 6).foldl (convFaceStep mipmapLevels level width height) acc

/-- One iteration of the level loop of `updateSpecularMaps` (`level = levelIndex + 1`):
run the face loop at the current width/height, then halve both. -/
def convLevelStep (mipmapLevels : ℕ) (acc : (ManagerState × List ℕ) × ℚ × ℚ)
    (levelIndex : ℕ) : (ManagerState × List ℕ) × ℚ × ℚ :=
  let level := levelIndex + 1
  let si := convFaceLoop mipmapLevels level acc.2.1 acc.2.2 acc.1
  (si, acc.2.1 / 2, acc.2.2 / 2)

/-- The level loop of `updateSpecularMaps`, over `level = 1 .. mipmapLevels − 1`,
threading the halving width and height. -/
def convLevelLoop (mipmapLevels : ℕ) (s : ManagerState) (width height : ℚ) :
    (ManagerState × List ℕ) × ℚ × ℚ :=
  (List.range (mipmapLevels - 1)).foldl (convLevelStep mipmapLevels)
    ((s, []), width, height)

/-- Source `updateSpecularMaps`: after `radianceCubeMap.generateMipmap()` (GPU-side, no
manager field), reset the `facesCopied` counter captured by this invocation's
completion callbacks and run the level loop for `level = 1 .. mipmapLevels − 1`
starting at half the cube map's dimensions. -/
def updateSpecularMaps (s : ManagerState) : ManagerState × List ℕ :=
  let s := { s with facesCopied := 0 }
  let acc := convLevelLoop s.mipmapLevels s
    (s.textureDimensions.1 / 2) (s.textureDimensions.2 / 2)
  acc.1

/-- Source `updateIrradianceResources`: lazily allocate the 3×3 irradiance texture and the
irradiance fragment-shader source, build the single irradiance command, store it in
`_irradianceComputeCommand` and set `_irradianceTextureDirty`. -/
def updateIrradianceResources (s : ManagerState) : ManagerState × List ℕ :=
  let s :=
    if s.irradianceMapTexture then s
    else
      { s with
        irradianceMapTexture := true
        allocLog := s.allocLog ++ [ResourceKind.irradianceMapTexture] }
  let s :=
    if s.irradianceMapFS then s
    else
      { s with
        irradianceMapFS := true
        allocLog := s.allocLog ++ [ResourceKind.irradianceMapFS] }
  let cmd : Command :=
    { kind := CmdKind.irradiance, roughness := 0, outputWidth := 3, outputHeight := 3,
      persists := false, canceled := false }
  let id := s.store.length
  ({ s with
      store := s.store ++ [cmd]
      irradianceComputeCommand := some id
      irradianceTextureDirty := true },
    [id])

/-- Source `updateSphericalHarmonicCoefficients`: read the 3×3 irradiance texture back
(`data` is the flat RGBA readback supplied by the rendering context) and write
`Cartesian3.unpack(data, i * 4)` into coefficient slot `i` for `i = 0 .. 8`. -/
def updateSphericalHarmonicCoefficients (s : ManagerState) (data : ℕ → ℚ) :
    ManagerState :=
  { s with
    sphericalHarmonicCoefficients :=
      (List.range 9).foldl
        (fun arr i => arr.set i (some (unpackCartesian3 data (i * 4))))
        s.sphericalHarmonicCoefficients }

/-- The per-frame inputs `update` consumes: the frame time and the rendering
context's pixel-readback data for the irradiance texture. -/
structure FrameState where
  time : ℚ
  readPixelsData : ℕ → ℚ

/-- The staleness check at the top of `update` (source lines 496–505): if the frame
time differs from `_lastTime` by more than `maximumSecondsDifference`, `_reset()` and
record the frame time as the new baseline. -/
def checkTimeDrift (s : ManagerState) (time : ℚ) : ManagerState :=
  if julianDateEqualsEpsilon time s.lastTime s.maximumSecondsDifference then s
  else { reset s with lastTime := time }

/-- Source `DynamicEnvironmentMapManager.prototype.update`: the per-frame sequencer.
Returns the new state, the heap indices of the commands pushed to
`frameState.commandList` this call, and the boolean result. -/
def update (s : ManagerState) (fs : FrameState) : ManagerState × List ℕ × Bool :=
  if !s.enabled || s.position.isNone then (s, [], false)
  else
    let s := checkTimeDrift s fs.time
    if s.radianceMapDirty then
      let si := updateRadianceMap s
      ({ si.1 with radianceMapDirty := false }, si.2, false)
    else if s.convolutionsCommandsDirty then
      let si := updateSpecularMaps s
      ({ si.1 with convolutionsCommandsDirty := false }, si.2, false)
    else
      let si :=
        if s.irradianceCommandDirty then
          let si := updateIrradianceResources s
          ({ si.1 with irradianceCommandDirty := false }, si.2)
        else (s, [])
      if si.1.irradianceTextureDirty then (si.1, si.2, false)
      else if si.1.sphericalHarmonicCoefficientsDirty then
        ({ updateSphericalHarmonicCoefficients si.1 fs.readPixelsData with
            sphericalHarmonicCoefficientsDirty := false },
          si.2, true)
      else (si.1, si.2, false)

/-- The completion callback of radiance command `index`: clear the slot, blit the
output into the corresponding cube-map face (GPU-side), and once no radiance slot is
occupied, flag the convolution stage ready. -/
def radiancePostExecute (s : ManagerState) (index : ℕ) : ManagerState :=
  let commands := s.radianceMapComputeCommands.set index none
  let s := { s with radianceMapComputeCommands := commands }
  if commands.any Option.isSome then s
  else { s with convolutionsCommandsDirty := true }

/-- The completion callback of convolution command `(level, faceIndex)`: clear its
slot, copy its output to the matching cube-map face and mip level (GPU-side),
increment the invocation's `facesCopied` counter, and when the counter reaches the
mip-chain length, flag the irradiance stage ready and install the trilinear
sampler. -/
def convolutionPostExecute (s : ManagerState) (level faceIndex : ℕ) : ManagerState :=
  let index := (level - 1) * 6 + faceIndex
  let s :=
    { s with
      convolutionComputeCommands := s.convolutionComputeCommands.set index none
      facesCopied := s.facesCopied + 1 }
  if s.facesCopied = s.specularMapTextures.length then
    { s with
      irradianceCommandDirty := true
      radianceCubeMapSampler := SamplerKind.linearMipmapLinear }
  else s

/-- The completion callback of the irradiance command: clear
`_irradianceTextureDirty` and `_irradianceComputeCommand`, flag coefficient
extraction. -/
def irradiancePostExecute (s : ManagerState) : ManagerState :=
  { s with
    irradianceTextureDirty := false
    irradianceComputeCommand := none
    sphericalHarmonicCoefficientsDirty := true }

/-- Dispatch a command's completion callback by its identity. -/
def runPostExecute (s : ManagerState) (c : Command) : ManagerState :=
  match c.kind with
  | CmdKind.radiance i => radiancePostExecute s i
  | CmdKind.convolution l f => convolutionPostExecute s l f
  | CmdKind.irradiance => irradiancePostExecute s

/-- Modelled from the spec: the external execution engine runs a submitted command
on a later frame and invokes its completion callback; a canceled task's completion
callback is treated as a no-op. -/
def completeCommand (s : ManagerState) (id : ℕ) : ManagerState :=
  match s.store[id]? with
  | some c => if c.canceled then s else runPostExecute s c
  | none => s

/-- Source `destroy`: cancel the commands held in the slot arrays and in
`_irradianceMapComputeCommand` (the same misnamed field `_reset` reads), then
destroy every texture and the cube map. -/
def destroy (s : ManagerState) : ManagerState :=
  let store := cancelSlots s.store s.radianceMapComputeCommands
  let store := cancelSlots store s.convolutionComputeCommands
  let store :=
    match s.irradianceMapComputeCommand with
    | some id => cancelId store id
    | none => store
  { s with
    store := store
    radianceMapTextures := s.radianceMapTextures.map (fun _ => false)
    specularMapTextures := s.specularMapTextures.map (fun _ => false)
    radianceCubeMap := false
    irradianceMapTexture := false }

/-- An externally observable event of the manager's lifetime: a sequencer
invocation, the executor completing a previously issued command, or an
assignment to the `position` property. -/
inductive Op where
  | updateFrame (fs : FrameState)
  | complete (id : ℕ)
  | setPos (value : Option Cartesian3)

/-- Apply one lifetime event to the state. -/
def step (s : ManagerState) : Op → ManagerState
  | Op.updateFrame fs => (update s fs).1
  | Op.complete id => completeCommand s id
  | Op.setPos value => setPosition s value

/-- Run a sequence of lifetime events from a state. -/
def run (s : ManagerState) (ops : List Op) : ManagerState :=
  ops.foldl step s

/-! ## Specification-side definitions

The definitions below restate the spec's description of the sequencer and of the
convolution batch; the theorems compare them with the source embedding above. -/

/-- The five stages of the sequencer's fixed priority order (spec §4.5). -/
inductive Stage where
  | radiance
  | convolutions
  | irradianceCommand
  | awaitingGPU
  | coefficients
deriving Repr, DecidableEq

/-- The first flag that is set, in the priority order radiance-map-dirty,
convolutions-ready, irradiance-command-ready, awaiting-GPU, coefficients-ready. -/
def firstDirty (s : ManagerState) : Option Stage :=
  if s.radianceMapDirty then some Stage.radiance
  else if s.convolutionsCommandsDirty then some Stage.convolutions
  else if s.irradianceCommandDirty then some Stage.irradianceCommand
  else if s.irradianceTextureDirty then some Stage.awaitingGPU
  else if s.sphericalHarmonicCoefficientsDirty then some Stage.coefficients
  else none

/-- The spec's sequencer: perform exactly the setup of the first-priority dirty
stage (clearing its flag), and return "complete" only from the coefficient
stage; with no flag set, do nothing and return "not complete". -/
def sequencerDispatch (s : ManagerState) (fs : FrameState) :
    ManagerState × List ℕ × Bool :=
  match firstDirty s with
  | some Stage.radiance =>
      ({ (updateRadianceMap s).1 with radianceMapDirty := false },
        (updateRadianceMap s).2, false)
  | some Stage.convolutions =>
      ({ (updateSpecularMaps s).1 with convolutionsCommandsDirty := false },
        (updateSpecularMaps s).2, false)
  | some Stage.irradianceCommand =>
      ({ (updateIrradianceResources s).1 with irradianceCommandDirty := false },
        (updateIrradianceResources s).2, false)
  | some Stage.awaitingGPU => (s, [], false)
  | some Stage.coefficients =>
      ({ updateSphericalHarmonicCoefficients s fs.readPixelsData with
          sphericalHarmonicCoefficientsDirty := false }, [], true)
  | none => (s, [], false)

/-- The spec's description of one convolution command: roughness
`level / (N − 1)`, output edge lengths `base / 2 ^ level`, persistent. -/
def convCmdSpec (N level f : ℕ) (baseW baseH : ℚ) : Command :=
  { kind := CmdKind.convolution level f
    roughness := ((level : ℕ) : ℚ) / ((N : ℚ) - 1)
    outputWidth := baseW / 2 ^ level
    outputHeight := baseH / 2 ^ level
    persists := true
    canceled := false }

/-- The spec's description of the convolution command batch: one command per
level `li + 1 ∈ [1, N − 1]` and face. -/
def convBatchSpec (N : ℕ) (baseW baseH : ℚ) : List Command :=
  (List.range (N - 1)).flatMap fun li =>
    (List.range 6).map fun f => convCmdSpec N (li + 1) f baseW baseH

/-- The resources whose allocation the source guards with a definedness check
(everything except the specular mip-chain textures). -/
def guarded : ResourceKind → Bool
  | ResourceKind.specularMapTexture _ => false
  | _ => true

/-- Whether a resource is currently allocated in a state. -/
def present (s : ManagerState) : ResourceKind → Bool
  | ResourceKind.radianceCubeMap => s.radianceCubeMap
  | ResourceKind.radianceMapTexture i => s.radianceMapTextures.getD i false
  | ResourceKind.specularMapTexture i => s.specularMapTextures.getD i false
  | ResourceKind.irradianceMapTexture => s.irradianceMapTexture
  | ResourceKind.radianceMapFS => s.radianceMapFS
  | ResourceKind.irradianceMapFS => s.irradianceMapFS
  | ResourceKind.convolveSP => s.convolveSP
  | ResourceKind.va => s.va

/-- The lifecycle invariant maintained by every manager operation: the fixed
array lengths, and an allocation log holding exactly one entry for each
currently allocated guarded resource and none for an unallocated one. -/
def Inv (s : ManagerState) : Prop :=
  s.radianceMapTextures.length = 6 ∧
  s.sphericalHarmonicCoefficients.length = 9 ∧
  ∀ k, guarded k = true → s.allocLog.count k = (if present s k then 1 else 0)

/-- State `t` retains every resource present in state `s`: presence of GPU
resources only grows until teardown. -/
def PresMono (s t : ManagerState) : Prop :=
  ∀ k, present s k = true → present t k = true

/-! ## Example inputs for concrete runs -/

/-- A concrete world position (roughly on the WGS84 equator). -/
def examplePosition : Cartesian3 := ⟨6378137, 0, 100⟩

/-- A second concrete position, far from `examplePosition`. -/
def examplePositionB : Cartesian3 := ⟨0, 6378137, 100⟩

/-- A concrete frame: time 0, readback data `i ↦ i`. -/
def exampleFrame : FrameState := { time := 0, readPixelsData := fun i => (i : ℚ) }

/-- A freshly constructed manager (default 10 mip levels) with a position set. -/
def exampleManager : ManagerState :=
  setPosition (initialState 10) (some examplePosition)

/-- A freshly constructed 2-mip-level manager with a position set. -/
def exampleManager2 : ManagerState :=
  setPosition (initialState 2) (some examplePosition)

/-- The canonical uninterrupted full pipeline schedule for 10 mip levels:
radiance setup, its 6 completions, convolution setup, its 54 completions,
irradiance setup, its completion, coefficient extraction. -/
def fullRunOps : List Op :=
  [Op.updateFrame exampleFrame] ++ (List.range 6).map Op.complete ++
    [Op.updateFrame exampleFrame] ++
      (List.range 54).map (fun i => Op.complete (6 + i)) ++
    [Op.updateFrame exampleFrame, Op.complete 60, Op.updateFrame exampleFrame]

/-- A schedule driving the 2-mip-level manager up to the frame on which the
irradiance command has just been issued (ids 0–5 radiance, 6–11 convolution,
12 irradiance). -/
def pendingIrradianceOps : List Op :=
  [Op.updateFrame exampleFrame] ++ (List.range 6).map Op.complete ++
    [Op.updateFrame exampleFrame] ++
      (List.range 6).map (fun i => Op.complete (6 + i)) ++
    [Op.updateFrame exampleFrame]

/-- The 2-mip-level manager at the moment its irradiance command is in flight. -/
def pendingIrradianceState : ManagerState :=
  run exampleManager2 pendingIrradianceOps

/-! ## Theorems -/

/-- C7: `_reset` sets only the two radiance-stage flags to true, and leaves the
convolution, irradiance-command, irradiance-texture and coefficient flags — and the
position, resources, mip level count, dimensions, timing fields and enabled flag —
unchanged. -/
theorem reset_sets_only_radiance_flags (s : ManagerState) :
    (reset s).radianceMapDirty = true ∧
    (reset s).radianceCommandsDirty = true ∧
    (reset s).convolutionsCommandsDirty = s.convolutionsCommandsDirty ∧
    (reset s).irradianceCommandDirty = s.irradianceCommandDirty ∧
    (reset s).irradianceTextureDirty = s.irradianceTextureDirty ∧
    (reset s).sphericalHarmonicCoefficientsDirty = s.sphericalHarmonicCoefficientsDirty ∧
    (reset s).position = s.position ∧
    (reset s).mipmapLevels = s.mipmapLevels ∧
    (reset s).enabled = s.enabled ∧
    (reset s).maximumSecondsDifference = s.maximumSecondsDifference ∧
    (reset s).lastTime = s.lastTime ∧
    (reset s).textureDimensions = s.textureDimensions ∧
    (reset s).radianceCubeMap = s.radianceCubeMap ∧
    (reset s).radianceCubeMapSampler = s.radianceCubeMapSampler ∧
    (reset s).radianceMapTextures = s.radianceMapTextures ∧
    (reset s).specularMapTextures = s.specularMapTextures ∧
    (reset s).irradianceMapTexture = s.irradianceMapTexture ∧
    (reset s).radianceMapFS = s.radianceMapFS ∧
    (reset s).irradianceMapFS = s.irradianceMapFS ∧
    (reset s).convolveSP = s.convolveSP ∧
    (reset s).va = s.va ∧
    (reset s).sphericalHarmonicCoefficients = s.sphericalHarmonicCoefficients ∧
    (reset s).allocLog = s.allocLog :=
  ⟨rfl, rfl, rfl, rfl, rfl, rfl, rfl, rfl, rfl, rfl, rfl, rfl, rfl, rfl, rfl, rfl,
    rfl, rfl, rfl, rfl, rfl, rfl, rfl⟩

/-- C9: once a pipeline cycle has completed (all six dirty flags false) and no
invalidation trigger fires (time within the staleness threshold), the sequencer
performs no work — state, command list and result are exactly unchanged — and
returns "not complete". -/
theorem update_idle_after_completion (s : ManagerState) (fs : FrameState)
    (henabled : s.enabled = true) (hpos : s.position ≠ none)
    (htime : |fs.time - s.lastTime| ≤ s.maximumSecondsDifference)
    (h0 : s.radianceCommandsDirty = false)
    (h1 : s.radianceMapDirty = false)
    (h2 : s.convolutionsCommandsDirty = false)
    (h3 : s.irradianceCommandDirty = false)
    (h4 : s.irradianceTextureDirty = false)
    (h5 : s.sphericalHarmonicCoefficientsDirty = false) :
    update s fs = (s, [], false) := by
  have hp : s.position.isNone = false := by
    cases hp : s.position
    · exact absurd hp hpos
    · rfl
  have ht : checkTimeDrift s fs.time = s := by
    unfold checkTimeDrift julianDateEqualsEpsilon
    simp [htime]
  unfold update
  simp [henabled, hp, ht, h1, h2, h3, h4, h5]

/-- The state used by witnesses for idle-sequencer properties: a manager with a
position whose radiance flags have been cleared. -/
def idleManager : ManagerState :=
  { exampleManager with radianceMapDirty := false, radianceCommandsDirty := false }

/-- Witness for C9 at a concrete idle state and frame. -/
theorem update_idle_after_completion_witness :
    idleManager.enabled = true ∧ idleManager.position ≠ none ∧
    |exampleFrame.time - idleManager.lastTime| ≤ idleManager.maximumSecondsDifference ∧
    update idleManager exampleFrame = (idleManager, [], false) := by
  have htime : |exampleFrame.time - idleManager.lastTime| ≤
      idleManager.maximumSecondsDifference := by
    have h1 : exampleFrame.time = 0 := rfl
    have h2 : idleManager.lastTime = 0 := rfl
    have h3 : idleManager.maximumSecondsDifference = 60 * 20 := rfl
    rw [h1, h2, h3, abs_le]
    norm_num
  exact ⟨rfl, by decide, htime,
    update_idle_after_completion idleManager exampleFrame rfl (by decide) htime
      rfl rfl rfl rfl rfl rfl⟩

/-- C6: redundant invalidation is absorbed.  Setting a position within `EPSILON8`
(stated via the squared magnitude) of the current one is a strict no-op; the
staleness check does not invalidate when the time difference is within the
threshold, and for a larger difference invalidates exactly once, recording the
new time as baseline; the constructed threshold is 1200 seconds. -/
theorem invalidation_absorbed (s : ManagerState) (p1 p2 : Cartesian3) (t : ℚ) :
    (s.position = some p1 → magnitudeSquaredDiff p2 p1 < EPSILON8 ^ 2 →
      setPosition s (some p2) = s) ∧
    (|t - s.lastTime| ≤ s.maximumSecondsDifference → checkTimeDrift s t = s) ∧
    (¬ |t - s.lastTime| ≤ s.maximumSecondsDifference →
      checkTimeDrift s t = { reset s with lastTime := t }) ∧
    (∀ N, (initialState N).maximumSecondsDifference = 1200) := by
  refine ⟨?_, ?_, ?_, ?_⟩
  · intro hp h
    have hε : (0 : ℚ) < EPSILON8 := by norm_num [EPSILON8]
    unfold magnitudeSquaredDiff at h
    have hx : |p2.x - p1.x| ≤ EPSILON8 := by
      rw [abs_le]
      constructor <;>
        nlinarith [sq_nonneg (p2.x - p1.x + EPSILON8), sq_nonneg (p2.x - p1.x - EPSILON8),
          sq_nonneg (p2.y - p1.y), sq_nonneg (p2.z - p1.z)]
    have hy : |p2.y - p1.y| ≤ EPSILON8 := by
      rw [abs_le]
      constructor <;>
        nlinarith [sq_nonneg (p2.y - p1.y + EPSILON8), sq_nonneg (p2.y - p1.y - EPSILON8),
          sq_nonneg (p2.x - p1.x), sq_nonneg (p2.z - p1.z)]
    have hz : |p2.z - p1.z| ≤ EPSILON8 := by
      rw [abs_le]
      constructor <;>
        nlinarith [sq_nonneg (p2.z - p1.z + EPSILON8), sq_nonneg (p2.z - p1.z - EPSILON8),
          sq_nonneg (p2.x - p1.x), sq_nonneg (p2.y - p1.y)]
    unfold setPosition
    rw [hp]
    simp [cartesian3EqualsEpsilon, hx, hy, hz]
  · intro h
    unfold checkTimeDrift julianDateEqualsEpsilon
    simp [h]
  · intro h
    unfold checkTimeDrift julianDateEqualsEpsilon
    simp [h]
  · intro N
    show (60 * 20 : ℚ) = 1200
    norm_num

/-- Witness for C6: the position no-op at zero distance, the absorbed 5-second
drift, and the invalidating 2000-second drift, on a concrete manager. -/
theorem invalidation_absorbed_witness :
    exampleManager.position = some examplePosition ∧
    magnitudeSquaredDiff examplePosition examplePosition < EPSILON8 ^ 2 ∧
    setPosition exampleManager (some examplePosition) = exampleManager ∧
    |(5 : ℚ) - exampleManager.lastTime| ≤ exampleManager.maximumSecondsDifference ∧
    checkTimeDrift exampleManager 5 = exampleManager ∧
    ¬ |(2000 : ℚ) - exampleManager.lastTime| ≤ exampleManager.maximumSecondsDifference ∧
    checkTimeDrift exampleManager 2000 = { reset exampleManager with lastTime := 2000 } := by
  have hmag : magnitudeSquaredDiff examplePosition examplePosition < EPSILON8 ^ 2 := by
    norm_num [magnitudeSquaredDiff, examplePosition, EPSILON8]
  have hlast : exampleManager.lastTime = 0 := rfl
  have hmax : exampleManager.maximumSecondsDifference = 60 * 20 := rfl
  have h5 : |(5 : ℚ) - exampleManager.lastTime| ≤ exampleManager.maximumSecondsDifference := by
    rw [hlast, hmax, abs_le]
    norm_num
  have h2000 : ¬ |(2000 : ℚ) - exampleManager.lastTime| ≤
      exampleManager.maximumSecondsDifference := by
    rw [hlast, hmax, abs_le]
    norm_num
  exact ⟨rfl, hmag,
    (invalidation_absorbed exampleManager examplePosition examplePosition 5).1 rfl hmag,
    h5,
    (invalidation_absorbed exampleManager examplePosition examplePosition 5).2.1 h5,
    h2000,
    (invalidation_absorbed exampleManager examplePosition examplePosition 2000).2.2.1 h2000⟩

/-- C10: at the position property's boundary with `undefined`: assigning a defined
value over `undefined`, or `undefined` over a defined value, always invalidates;
assigning `undefined` over `undefined` is a no-op; and with an `undefined`
position every `update` does nothing and returns false. -/
theorem position_definedness_boundary (s : ManagerState) (p q : Cartesian3)
    (fs : FrameState) :
    (s.position = none → setPosition s (some p) = reset { s with position := some p }) ∧
    (s.position = some q → setPosition s none = reset { s with position := none }) ∧
    (s.position = none → setPosition s none = s) ∧
    (s.position = none → update s fs = (s, [], false)) := by
  refine ⟨fun h => ?_, fun h => ?_, fun h => ?_, fun h => ?_⟩
  · simp [setPosition, h, cartesian3EqualsEpsilon]
  · simp [setPosition, h, cartesian3EqualsEpsilon]
  · simp [setPosition, h, cartesian3EqualsEpsilon]
  · have hp : s.position.isNone = true := by simp [h]
    simp [update, hp]

/-- Witness for C10 on a fresh manager (position `undefined`) and on
`exampleManager` (position defined). -/
theorem position_definedness_boundary_witness :
    (initialState 10).position = none ∧
    exampleManager.position = some examplePosition ∧
    setPosition (initialState 10) (some examplePosition) =
      reset { initialState 10 with position := some examplePosition } ∧
    setPosition exampleManager none = reset { exampleManager with position := none } ∧
    setPosition (initialState 10) none = initialState 10 ∧
    update (initialState 10) exampleFrame = (initialState 10, [], false) :=
  ⟨rfl, rfl,
    (position_definedness_boundary (initialState 10) examplePosition examplePosition
      exampleFrame).1 rfl,
    (position_definedness_boundary exampleManager examplePosition examplePosition
      exampleFrame).2.1 rfl,
    (position_definedness_boundary (initialState 10) examplePosition examplePosition
      exampleFrame).2.2.1 rfl,
    (position_definedness_boundary (initialState 10) examplePosition examplePosition
      exampleFrame).2.2.2 rfl⟩

set_option maxRecDepth 200000 in
/-- C2 (code defect): with the 2-mip-level manager's irradiance command in flight
(heap id 12), `_reset` cancels nothing of it: the slot `_irradianceComputeCommand`
still holds the command, the command is not marked canceled (the source reads the
never-assigned field `_irradianceMapComputeCommand` instead), and the stale task's
completion callback still fires and flags coefficient extraction for the
superseded cycle. The radiance and convolution stages, by contrast, are fully
canceled and cleared. -/
theorem reset_misses_pending_irradiance_command :
    pendingIrradianceState.irradianceComputeCommand = some 12 ∧
    (pendingIrradianceState.store[12]?).map Command.canceled = some false ∧
    (reset pendingIrradianceState).irradianceComputeCommand = some 12 ∧
    ((reset pendingIrradianceState).store[12]?).map Command.canceled = some false ∧
    (completeCommand (reset pendingIrradianceState) 12).sphericalHarmonicCoefficientsDirty
      = true :=
  ⟨by with_unfolding_all rfl, by with_unfolding_all rfl, by with_unfolding_all rfl,
    by with_unfolding_all rfl, by with_unfolding_all rfl⟩

set_option maxRecDepth 1000000 in
/-- C3: the canonical uninterrupted full pipeline run with 10 mip levels creates
exactly 61 GPU tasks — 6 radiance, 54 convolution, 1 irradiance — and ends with
all 9 coefficient vectors computed. -/
theorem full_pipeline_run_task_counts :
    (run exampleManager fullRunOps).store.length = 61 ∧
    ((run exampleManager fullRunOps).store.filter fun c =>
        match c.kind with
        | CmdKind.radiance _ => true
        | _ => false).length = 6 ∧
    ((run exampleManager fullRunOps).store.filter fun c =>
        match c.kind with
        | CmdKind.convolution _ _ => true
        | _ => false).length = 54 ∧
    ((run exampleManager fullRunOps).store.filter fun c =>
        match c.kind with
        | CmdKind.irradiance => true
        | _ => false).length = 1 ∧
    (run exampleManager fullRunOps).sphericalHarmonicCoefficients.length = 9 ∧
    (run exampleManager fullRunOps).sphericalHarmonicCoefficients.all Option.isSome
      = true :=
  ⟨by with_unfolding_all rfl, by with_unfolding_all rfl, by with_unfolding_all rfl,
    by with_unfolding_all rfl, by with_unfolding_all rfl, by with_unfolding_all rfl⟩

/-- The irradiance-stage setup always leaves the awaiting-GPU flag set, so the
sequencer returns "not complete" from the same invocation. -/
theorem updateIrradianceResources_awaiting (s : ManagerState) :
    (updateIrradianceResources s).1.irradianceTextureDirty = true := rfl

/-- The sequencer equation shared by the priority and lifecycle theorems: `update`
is the guard followed by the dispatch of the first-priority dirty stage on the
staleness-checked state. -/
theorem update_eq_dispatch (s : ManagerState) (fs : FrameState) :
    update s fs =
      if s.enabled = true ∧ s.position ≠ none then
        sequencerDispatch (checkTimeDrift s fs.time) fs
      else (s, [], false) := by
  by_cases hg : s.enabled = true ∧ s.position ≠ none
  · rw [if_pos hg]
    obtain ⟨h1, h2⟩ := hg
    have h3 : s.position.isNone = false := by
      cases hp : s.position
      · exact absurd hp h2
      · rfl
    unfold update
    rw [if_neg (by simp [h1, h3])]
    generalize checkTimeDrift s fs.time = t
    unfold sequencerDispatch firstDirty
    cases hA : t.radianceMapDirty <;> cases hB : t.convolutionsCommandsDirty <;>
      cases hC : t.irradianceCommandDirty <;> cases hD : t.irradianceTextureDirty <;>
      cases hE : t.sphericalHarmonicCoefficientsDirty <;>
      simp [hA, hB, hC, hD, hE, updateIrradianceResources_awaiting]
  · rw [if_neg hg]
    unfold update
    rcases not_and_or.mp hg with h1 | h2
    · have he : s.enabled = false := by
        simpa using h1
      simp [he]
    · have hp : s.position = none := not_not.mp h2
      simp [hp]

/-- C1: the sequencer is a no-op returning "not complete" when disabled or without
a position; otherwise, after the staleness check, it performs exactly the dispatch
of the first-priority dirty stage. -/
theorem sequencer_priority_dispatch (s : ManagerState) (fs : FrameState) :
    ((s.enabled = false ∨ s.position = none) → update s fs = (s, [], false)) ∧
    (s.enabled = true → s.position ≠ none →
      update s fs = sequencerDispatch (checkTimeDrift s fs.time) fs) := by
  constructor
  · intro h
    rw [update_eq_dispatch, if_neg]
    rcases h with h | h
    · exact fun hc => absurd hc.1 (by simp [h])
    · exact fun hc => absurd h hc.2
  · intro h1 h2
    rw [update_eq_dispatch, if_pos ⟨h1, h2⟩]

/-- Witness for C1 on a concrete enabled manager with a position. -/
theorem sequencer_priority_dispatch_witness :
    exampleManager.enabled = true ∧ exampleManager.position ≠ none ∧
    update exampleManager exampleFrame =
      sequencerDispatch (checkTimeDrift exampleManager exampleFrame.time) exampleFrame :=
  ⟨rfl, by decide,
    (sequencer_priority_dispatch exampleManager exampleFrame).2 rfl (by decide)⟩

/-- An invariant holds after a fold when it holds initially and every step on a
list element preserves it. -/
theorem foldl_preserve {α : Type} {β : Type} (P : α → Prop) (f : α → β → α) :
    ∀ (l : List β) (a : α), P a → (∀ x b, b ∈ l → P x → P (f x b)) →
      P (l.foldl f a) := by
  intro l
  induction l with
  | nil => exact fun a ha _ => ha
  | cons b l ih =>
      intro a ha hf
      exact ih (f a b) (hf a b (List.mem_cons_self b l) ha)
        (fun x c hc hx => hf x c (List.mem_cons_of_mem b hc) hx)

/-- The lifecycle invariant transports along an operation that allocates
nothing and preserves every resource's presence and the array lengths. -/
theorem Inv_preserve {s t : ManagerState} (h : Inv s)
    (hlog : t.allocLog = s.allocLog)
    (hpres : ∀ k, present t k = present s k)
    (h6 : t.radianceMapTextures.length = s.radianceMapTextures.length)
    (h9 : t.sphericalHarmonicCoefficients.length =
      s.sphericalHarmonicCoefficients.length) :
    Inv t := by
  obtain ⟨l6, l9, hA⟩ := h
  refine ⟨by rw [h6, l6], by rw [h9, l9], ?_⟩
  intro k hk
  rw [hlog, hpres k]
  exact hA k hk

/-- The lifecycle invariant transports along an operation that allocates exactly
one previously absent resource. -/
theorem Inv_alloc {s t : ManagerState} (h : Inv s) (k0 : ResourceKind)
    (hlog : t.allocLog = s.allocLog ++ [k0])
    (hpres0 : present s k0 = false) (hpres1 : present t k0 = true)
    (hpres : ∀ k, k ≠ k0 → present t k = present s k)
    (h6 : t.radianceMapTextures.length = s.radianceMapTextures.length)
    (h9 : t.sphericalHarmonicCoefficients.length =
      s.sphericalHarmonicCoefficients.length) :
    Inv t := by
  obtain ⟨l6, l9, hA⟩ := h
  refine ⟨by rw [h6, l6], by rw [h9, l9], ?_⟩
  intro k hk
  by_cases hkk : k = k0
  · subst hkk
    have h0 : s.allocLog.count k = 0 := by simpa [hpres0] using hA k hk
    simp [hlog, List.count_append, h0, hpres1]
  · have hne : (k0 == k) = false := by
      simpa using fun h => hkk h.symm
    rw [hlog, List.count_append, List.count_singleton, hne, hpres k hkk]
    simpa using hA k hk

/-- The lifecycle invariant holds at construction. -/
theorem Inv_initialState (N : ℕ) : Inv (initialState N) := by
  refine ⟨by simp [initialState], by simp [initialState], ?_⟩
  intro k hk
  have hp : present (initialState N) k = false := by
    cases k <;>
        simp only [present, initialState, List.getD_eq_getElem?_getD,
          List.getElem?_replicate] <;>
      first
        | rfl
        | (split <;> rfl)
  rw [hp]
  cases k <;> simp [initialState]

theorem Inv_reset (s : ManagerState) (h : Inv s) : Inv (reset s) :=
  Inv_preserve h rfl (fun k => by cases k <;> rfl) rfl rfl

theorem Inv_setPosition (s : ManagerState) (v : Option Cartesian3) (h : Inv s) :
    Inv (setPosition s v) := by
  unfold setPosition
  split
  · exact h
  · exact Inv_preserve h rfl (fun k => by cases k <;> rfl) rfl rfl

theorem Inv_checkTimeDrift (s : ManagerState) (t : ℚ) (h : Inv s) :
    Inv (checkTimeDrift s t) := by
  unfold checkTimeDrift
  split
  · exact h
  · exact Inv_preserve h rfl (fun k => by cases k <;> rfl) rfl rfl

theorem Inv_radianceFaceStep (d : ℚ × ℚ) (acc : ManagerState × List ℕ) (i : ℕ)
    (hi : i < 6) (h : Inv acc.1) : Inv (radianceFaceStep d acc i).1 := by
  unfold radianceFaceStep
  by_cases hp : acc.1.radianceMapTextures.getD i false = true
  · simp only [hp, if_true]
    exact Inv_preserve h rfl (fun k => by cases k <;> rfl) rfl rfl
  · simp only [hp, if_false]
    refine Inv_alloc h (ResourceKind.radianceMapTexture i) rfl
      (by simpa [present] using hp)
      (by simp [present, List.getD_eq_getElem?_getD, List.getElem?_set, h.1, hi])
      ?_ (by simp) rfl
    intro k hkk
    cases k <;>
      first
        | rfl
        | (rename_i j
           have hij : i ≠ j := fun hh => hkk (by rw [hh])
           simp [present, List.getD_eq_getElem?_getD, List.getElem?_set, hij])

theorem Inv_radianceFaceLoop (d : ℚ × ℚ) (s : ManagerState) (h : Inv s) :
    Inv (radianceFaceLoop d s).1 :=
  foldl_preserve (fun x => Inv x.1) (radianceFaceStep d) (List.range 6) (s, []) h
    (fun x b hb hx => Inv_radianceFaceStep d x b (List.mem_range.mp hb) hx)

theorem Inv_updateRadianceMap (s : ManagerState) (h : Inv s) :
    Inv (updateRadianceMap s).1 := by
  have hFS : ∀ (u : ManagerState), Inv u →
      Inv (if u.radianceMapFS then u
        else { u with radianceMapFS := true,
                      allocLog := u.allocLog ++ [ResourceKind.radianceMapFS] }) := by
    intro u hu
    split
    · exact hu
    · exact Inv_alloc hu ResourceKind.radianceMapFS rfl
        (by simp only [present]; exact (Bool.not_eq_true _) ▸ ‹¬ _›)
        (by simp [present])
        (fun k hkk => by cases k <;> first | rfl | exact absurd rfl hkk) rfl rfl
  have hbody : ∀ (u : ManagerState), Inv u →
      Inv ((if u.radianceCommandsDirty then
          let s2 := if u.radianceMapFS then u
            else { u with radianceMapFS := true,
                          allocLog := u.allocLog ++ [ResourceKind.radianceMapFS] }
          let si := radianceFaceLoop s2.textureDimensions s2
          ({ si.1 with radianceCommandsDirty := false }, si.2)
        else (u, [])).1) := by
    intro u hu
    split
    · lift_lets
      extract_lets s2 si src
      have hs2 : Inv s2 := hFS u hu
      have hsi : Inv si.1 := Inv_radianceFaceLoop s2.textureDimensions s2 hs2
      clear_value si
      exact Inv_preserve hsi rfl (fun k => by cases k <;> rfl) rfl rfl
    · exact hu
  unfold updateRadianceMap
  by_cases hc : s.radianceCubeMap = true
  · rw [if_pos hc]
    exact hbody s h
  · rw [if_neg hc]
    exact hbody _ (Inv_alloc h ResourceKind.radianceCubeMap rfl
      (by simp only [present]; exact (Bool.not_eq_true _) ▸ hc)
      (by simp [present])
      (fun k hkk => by cases k <;> first | rfl | exact absurd rfl hkk) rfl rfl)

/-- The lifecycle invariant transports along an operation that appends an
unguarded allocation to the log. -/
theorem Inv_unguarded_alloc {s t : ManagerState} (h : Inv s) (k0 : ResourceKind)
    (hg : guarded k0 = false)
    (hlog : t.allocLog = s.allocLog ++ [k0])
    (hpres : ∀ k, guarded k = true → present t k = present s k)
    (h6 : t.radianceMapTextures.length = s.radianceMapTextures.length)
    (h9 : t.sphericalHarmonicCoefficients.length =
      s.sphericalHarmonicCoefficients.length) :
    Inv t := by
  obtain ⟨l6, l9, hA⟩ := h
  refine ⟨by rw [h6, l6], by rw [h9, l9], ?_⟩
  intro k hk
  have hne : (k0 == k) = false := by
    refine beq_eq_false_iff_ne.mpr (fun hkk => ?_)
    rw [hkk] at hg
    rw [hg] at hk
    exact Bool.false_ne_true hk
  rw [hlog, List.count_append, List.count_singleton, hne, hpres k hk]
  simpa using hA k hk

theorem Inv_convFaceStep (N level : ℕ) (w hgt : ℚ) (acc : ManagerState × List ℕ)
    (f : ℕ) (hI : Inv acc.1) : Inv (convFaceStep N level w hgt acc f).1 := by
  have hVA : ∀ u : ManagerState, Inv u →
      Inv (if u.va then u
        else { u with va := true, allocLog := u.allocLog ++ [ResourceKind.va] }) := by
    intro u hu
    split
    · exact hu
    · exact Inv_alloc hu ResourceKind.va rfl
        (by simp only [present]; exact (Bool.not_eq_true _) ▸ ‹¬ _›)
        (by simp [present])
        (fun k hkk => by cases k <;> first | rfl | exact absurd rfl hkk) rfl rfl
  have hSP : ∀ u : ManagerState, Inv u →
      Inv (if u.convolveSP then u
        else { u with convolveSP := true,
                      allocLog := u.allocLog ++ [ResourceKind.convolveSP] }) := by
    intro u hu
    split
    · exact hu
    · exact Inv_alloc hu ResourceKind.convolveSP rfl
        (by simp only [present]; exact (Bool.not_eq_true _) ▸ ‹¬ _›)
        (by simp [present])
        (fun k hkk => by cases k <;> first | rfl | exact absurd rfl hkk) rfl rfl
  have h1 : Inv { acc.1 with
      specularMapTextures :=
        acc.1.specularMapTextures.set ((level - 1) * 6 + f) true,
      allocLog := acc.1.allocLog ++
        [ResourceKind.specularMapTexture ((level - 1) * 6 + f)] } :=
    Inv_unguarded_alloc hI
      (ResourceKind.specularMapTexture ((level - 1) * 6 + f)) rfl rfl
      (fun k hk => by cases k <;> first | rfl | (simp [guarded] at hk)) rfl rfl
  unfold convFaceStep
  exact Inv_preserve (hSP _ (hVA _ h1)) rfl (fun k => by cases k <;> rfl) rfl rfl

theorem Inv_convFaceLoop (N level : ℕ) (w hgt : ℚ) (acc : ManagerState × List ℕ)
    (h : Inv acc.1) : Inv (convFaceLoop N level w hgt acc).1 :=
  foldl_preserve (fun x => Inv x.1) (convFaceStep N level w hgt) (List.range 6)
    acc h (fun x b _ hx => Inv_convFaceStep N level w hgt x b hx)

theorem Inv_convLevelStep (N : ℕ) (acc : (ManagerState × List ℕ) × ℚ × ℚ)
    (li : ℕ) (h : Inv acc.1.1) : Inv (convLevelStep N acc li).1.1 := by
  unfold convLevelStep
  exact Inv_convFaceLoop N (li + 1) acc.2.1 acc.2.2 acc.1 h

theorem Inv_convLevelLoop (N : ℕ) (s : ManagerState) (w hgt : ℚ) (h : Inv s) :
    Inv (convLevelLoop N s w hgt).1.1 :=
  foldl_preserve (fun x => Inv x.1.1) (convLevelStep N) (List.range (N - 1))
    ((s, []), w, hgt) h (fun x b _ hx => Inv_convLevelStep N x b hx)

theorem Inv_updateSpecularMaps (s : ManagerState) (h : Inv s) :
    Inv (updateSpecularMaps s).1 := by
  unfold updateSpecularMaps
  exact Inv_convLevelLoop _ _ _ _
    (Inv_preserve h rfl (fun k => by cases k <;> rfl) rfl rfl)

theorem Inv_updateIrradianceResources (s : ManagerState) (h : Inv s) :
    Inv (updateIrradianceResources s).1 := by
  have hTex : ∀ u : ManagerState, Inv u →
      Inv (if u.irradianceMapTexture then u
        else { u with irradianceMapTexture := true,
                      allocLog := u.allocLog ++ [ResourceKind.irradianceMapTexture] }) := by
    intro u hu
    split
    · exact hu
    · exact Inv_alloc hu ResourceKind.irradianceMapTexture rfl
        (by simp only [present]; exact (Bool.not_eq_true _) ▸ ‹¬ _›)
        (by simp [present])
        (fun k hkk => by cases k <;> first | rfl | exact absurd rfl hkk) rfl rfl
  have hFS2 : ∀ u : ManagerState, Inv u →
      Inv (if u.irradianceMapFS then u
        else { u with irradianceMapFS := true,
                      allocLog := u.allocLog ++ [ResourceKind.irradianceMapFS] }) := by
    intro u hu
    split
    · exact hu
    · exact Inv_alloc hu ResourceKind.irradianceMapFS rfl
        (by simp only [present]; exact (Bool.not_eq_true _) ▸ ‹¬ _›)
        (by simp [present])
        (fun k hkk => by cases k <;> first | rfl | exact absurd rfl hkk) rfl rfl
  unfold updateIrradianceResources
  exact Inv_preserve (hFS2 _ (hTex s h)) rfl (fun k => by cases k <;> rfl) rfl rfl

/-- The coefficient-extraction fold writes in place and keeps the array length. -/
theorem shcFold_length (data : ℕ → ℚ) (l : List ℕ) (arr : List (Option Cartesian3)) :
    (l.foldl (fun a i => a.set i (some (unpackCartesian3 data (i * 4)))) arr).length
      = arr.length := by
  induction l generalizing arr with
  | nil => rfl
  | cons b l ih => rw [List.foldl_cons, ih, List.length_set]

theorem Inv_updateSphericalHarmonicCoefficients (s : ManagerState) (data : ℕ → ℚ)
    (h : Inv s) : Inv (updateSphericalHarmonicCoefficients s data) :=
  Inv_preserve h rfl (fun k => by cases k <;> rfl) rfl
    (shcFold_length data (List.range 9) s.sphericalHarmonicCoefficients)

theorem Inv_radiancePostExecute (s : ManagerState) (i : ℕ) (h : Inv s) :
    Inv (radiancePostExecute s i) := by
  unfold radiancePostExecute
  lift_lets
  extract_lets commands s1
  split
  · exact Inv_preserve h rfl (fun k => by cases k <;> rfl) rfl rfl
  · exact Inv_preserve h rfl (fun k => by cases k <;> rfl) rfl rfl

theorem Inv_convolutionPostExecute (s : ManagerState) (l f : ℕ) (h : Inv s) :
    Inv (convolutionPostExecute s l f) := by
  unfold convolutionPostExecute
  lift_lets
  extract_lets index s1
  split
  · exact Inv_preserve h rfl (fun k => by cases k <;> rfl) rfl rfl
  · exact Inv_preserve h rfl (fun k => by cases k <;> rfl) rfl rfl

theorem Inv_irradiancePostExecute (s : ManagerState) (h : Inv s) :
    Inv (irradiancePostExecute s) :=
  Inv_preserve h rfl (fun k => by cases k <;> rfl) rfl rfl

theorem Inv_completeCommand (s : ManagerState) (id : ℕ) (h : Inv s) :
    Inv (completeCommand s id) := by
  unfold completeCommand
  split
  · split
    · exact h
    · unfold runPostExecute
      split
      · exact Inv_radiancePostExecute s _ h
      · exact Inv_convolutionPostExecute s _ _ h
      · exact Inv_irradiancePostExecute s h
  · exact h

theorem Inv_sequencerDispatch (s : ManagerState) (fs : FrameState) (h : Inv s) :
    Inv (sequencerDispatch s fs).1 := by
  unfold sequencerDispatch
  split
  · exact Inv_preserve (Inv_updateRadianceMap s h) rfl
      (fun k => by cases k <;> rfl) rfl rfl
  · exact Inv_preserve (Inv_updateSpecularMaps s h) rfl
      (fun k => by cases k <;> rfl) rfl rfl
  · exact Inv_preserve (Inv_updateIrradianceResources s h) rfl
      (fun k => by cases k <;> rfl) rfl rfl
  · exact h
  · exact Inv_preserve (Inv_updateSphericalHarmonicCoefficients s fs.readPixelsData h)
      rfl (fun k => by cases k <;> rfl) rfl rfl
  · exact h

theorem Inv_update (s : ManagerState) (fs : FrameState) (h : Inv s) :
    Inv (update s fs).1 := by
  rw [update_eq_dispatch]
  split
  · exact Inv_sequencerDispatch _ fs (Inv_checkTimeDrift s fs.time h)
  · exact h

theorem Inv_step (s : ManagerState) (op : Op) (h : Inv s) : Inv (step s op) := by
  cases op with
  | updateFrame fs => exact Inv_update s fs h
  | complete id => exact Inv_completeCommand s id h
  | setPos v => exact Inv_setPosition s v h

theorem Inv_run (s : ManagerState) (ops : List Op) (h : Inv s) : Inv (run s ops) :=
  foldl_preserve Inv step ops s h (fun x b _ hx => Inv_step x b hx)


theorem presMono_refl (s : ManagerState) : PresMono s s := fun _ h => h

theorem presMono_trans {a b c : ManagerState} (h1 : PresMono a b)
    (h2 : PresMono b c) : PresMono a c :=
  fun k h => h2 k (h1 k h)

theorem presMono_of_fields {s t : ManagerState}
    (hpres : ∀ k, present t k = present s k) : PresMono s t :=
  fun k h => by rw [hpres k, h]

/-- Setting any entry of a Bool list to true never clears a true entry. -/
theorem getD_set_true_mono (l : List Bool) (i j : ℕ)
    (h : l.getD j false = true) : (l.set i true).getD j false = true := by
  rw [List.getD_eq_getElem?_getD] at h
  rw [List.getD_eq_getElem?_getD, List.getElem?_set]
  by_cases hij : i = j
  · subst hij
    by_cases hlen : i < l.length
    · simp [hlen]
    · have hn : l[i]? = none := List.getElem?_eq_none (Nat.le_of_not_lt hlen)
      rw [hn] at h
      simp only [if_pos rfl, if_neg hlen]
      exact h
  · simp only [if_neg hij]
    exact h

theorem presMono_radianceFaceStep (d : ℚ × ℚ) (acc : ManagerState × List ℕ)
    (i : ℕ) : PresMono acc.1 (radianceFaceStep d acc i).1 := by
  unfold radianceFaceStep
  by_cases hp : acc.1.radianceMapTextures.getD i false = true
  · simp only [hp, if_true]
    exact presMono_of_fields (fun k => by cases k <;> rfl)
  · simp only [hp, if_false]
    intro k h
    cases k <;>
      first
        | exact h
        | (rename_i j
           show (acc.1.radianceMapTextures.set i true).getD j false = true
           exact getD_set_true_mono _ i j h)

theorem presMono_radianceFaceLoop (d : ℚ × ℚ) (s : ManagerState) :
    PresMono s (radianceFaceLoop d s).1 := by
  have hgen : ∀ (bs : List ℕ) (a : ManagerState × List ℕ),
      PresMono a.1 ((bs.foldl (radianceFaceStep d) a).1) := by
    intro bs
    induction bs with
    | nil => exact fun a => presMono_refl a.1
    | cons b bs ih =>
        intro a
        exact presMono_trans (presMono_radianceFaceStep d a b)
          (ih (radianceFaceStep d a b))
  exact hgen (List.range 6) (s, [])

theorem presMono_updateRadianceMap (s : ManagerState) :
    PresMono s (updateRadianceMap s).1 := by
  have hFS : ∀ u : ManagerState,
      PresMono u (if u.radianceMapFS then u
        else { u with radianceMapFS := true,
                      allocLog := u.allocLog ++ [ResourceKind.radianceMapFS] }) := by
    intro u
    split
    · exact presMono_refl u
    · intro k h
      cases k <;> first | exact h | rfl
  have hbody : ∀ u : ManagerState,
      PresMono u ((if u.radianceCommandsDirty then
          let s2 := if u.radianceMapFS then u
            else { u with radianceMapFS := true,
                          allocLog := u.allocLog ++ [ResourceKind.radianceMapFS] }
          let si := radianceFaceLoop s2.textureDimensions s2
          ({ si.1 with radianceCommandsDirty := false }, si.2)
        else (u, [])).1) := by
    intro u
    split
    · lift_lets
      extract_lets s2 si src
      have h1 : PresMono u s2 := hFS u
      have h2 : PresMono s2 si.1 := presMono_radianceFaceLoop s2.textureDimensions s2
      have h3 : PresMono si.1 src := presMono_refl src
      clear_value si
      exact presMono_trans (presMono_trans h1 h2)
        (presMono_of_fields (fun k => by cases k <;> rfl))
    · exact presMono_refl u
  by_cases hc : s.radianceCubeMap = true
  · unfold updateRadianceMap
    rw [if_pos hc]
    exact hbody s
  · unfold updateRadianceMap
    rw [if_neg hc]
    have h0 : PresMono s
        { s with radianceCubeMap := true,
                 allocLog := s.allocLog ++ [ResourceKind.radianceCubeMap] } := by
      intro k h
      cases k <;> first | exact h | rfl
    exact presMono_trans h0 (hbody _)

theorem presMono_convFaceStep (N level : ℕ) (w hgt : ℚ)
    (acc : ManagerState × List ℕ) (f : ℕ) :
    PresMono acc.1 (convFaceStep N level w hgt acc f).1 := by
  have hVA : ∀ u : ManagerState,
      PresMono u (if u.va then u
        else { u with va := true,
                      allocLog := u.allocLog ++ [ResourceKind.va] }) := by
    intro u
    split
    · exact presMono_refl u
    · intro k h
      cases k <;> first | exact h | rfl
  have hSP : ∀ u : ManagerState,
      PresMono u (if u.convolveSP then u
        else { u with convolveSP := true,
                      allocLog := u.allocLog ++ [ResourceKind.convolveSP] }) := by
    intro u
    split
    · exact presMono_refl u
    · intro k h
      cases k <;> first | exact h | rfl
  have h1 : PresMono acc.1 { acc.1 with
      specularMapTextures :=
        acc.1.specularMapTextures.set ((level - 1) * 6 + f) true,
      allocLog := acc.1.allocLog ++
        [ResourceKind.specularMapTexture ((level - 1) * 6 + f)] } := by
    intro k h
    cases k <;>
      first
        | exact h
        | (rename_i j
           exact getD_set_true_mono _ ((level - 1) * 6 + f) j h)
  unfold convFaceStep
  exact presMono_trans (presMono_trans (presMono_trans h1 (hVA _)) (hSP _))
    (presMono_of_fields (fun k => by cases k <;> rfl))

theorem presMono_convFaceLoop (N level : ℕ) (w hgt : ℚ)
    (acc : ManagerState × List ℕ) :
    PresMono acc.1 (convFaceLoop N level w hgt acc).1 := by
  have hgen : ∀ (bs : List ℕ) (a : ManagerState × List ℕ),
      PresMono a.1 ((bs.foldl (convFaceStep N level w hgt) a).1) := by
    intro bs
    induction bs with
    | nil => exact fun a => presMono_refl a.1
    | cons b bs ih =>
        intro a
        exact presMono_trans (presMono_convFaceStep N level w hgt a b)
          (ih (convFaceStep N level w hgt a b))
  exact hgen (List.range 6) acc

theorem presMono_convLevelStep (N : ℕ) (acc : (ManagerState × List ℕ) × ℚ × ℚ)
    (li : ℕ) : PresMono acc.1.1 (convLevelStep N acc li).1.1 := by
  unfold convLevelStep
  exact presMono_convFaceLoop N (li + 1) acc.2.1 acc.2.2 acc.1

theorem presMono_convLevelLoop (N : ℕ) (s : ManagerState) (w hgt : ℚ) :
    PresMono s (convLevelLoop N s w hgt).1.1 := by
  have hgen : ∀ (bs : List ℕ) (a : (ManagerState × List ℕ) × ℚ × ℚ),
      PresMono a.1.1 ((bs.foldl (convLevelStep N) a).1.1) := by
    intro bs
    induction bs with
    | nil => exact fun a => presMono_refl a.1.1
    | cons b bs ih =>
        intro a
        exact presMono_trans (presMono_convLevelStep N a b)
          (ih (convLevelStep N a b))
  exact hgen (List.range (N - 1)) ((s, []), w, hgt)

theorem presMono_updateSpecularMaps (s : ManagerState) :
    PresMono s (updateSpecularMaps s).1 := by
  unfold updateSpecularMaps
  have h0 : PresMono s { s with facesCopied := 0 } :=
    presMono_of_fields (fun k => by cases k <;> rfl)
  exact presMono_trans h0
    (presMono_convLevelLoop s.mipmapLevels { s with facesCopied := 0 }
      (s.textureDimensions.1 / 2) (s.textureDimensions.2 / 2))

theorem presMono_updateIrradianceResources (s : ManagerState) :
    PresMono s (updateIrradianceResources s).1 := by
  have hTex : ∀ u : ManagerState,
      PresMono u (if u.irradianceMapTexture then u
        else { u with irradianceMapTexture := true,
                      allocLog := u.allocLog ++ [ResourceKind.irradianceMapTexture] }) := by
    intro u
    split
    · exact presMono_refl u
    · intro k h
      cases k <;> first | exact h | rfl
  have hFS2 : ∀ u : ManagerState,
      PresMono u (if u.irradianceMapFS then u
        else { u with irradianceMapFS := true,
                      allocLog := u.allocLog ++ [ResourceKind.irradianceMapFS] }) := by
    intro u
    split
    · exact presMono_refl u
    · intro k h
      cases k <;> first | exact h | rfl
  unfold updateIrradianceResources
  exact presMono_trans (presMono_trans (hTex s) (hFS2 _))
    (presMono_of_fields (fun k => by cases k <;> rfl))

theorem presMono_updateSphericalHarmonicCoefficients (s : ManagerState)
    (data : ℕ → ℚ) : PresMono s (updateSphericalHarmonicCoefficients s data) :=
  presMono_of_fields (fun k => by cases k <;> rfl)

theorem presMono_reset (s : ManagerState) : PresMono s (reset s) :=
  presMono_of_fields (fun k => by cases k <;> rfl)

theorem presMono_setPosition (s : ManagerState) (v : Option Cartesian3) :
    PresMono s (setPosition s v) := by
  unfold setPosition
  split
  · exact presMono_refl s
  · exact presMono_of_fields (fun k => by cases k <;> rfl)

theorem presMono_checkTimeDrift (s : ManagerState) (t : ℚ) :
    PresMono s (checkTimeDrift s t) := by
  unfold checkTimeDrift
  split
  · exact presMono_refl s
  · exact presMono_of_fields (fun k => by cases k <;> rfl)

theorem presMono_completeCommand (s : ManagerState) (id : ℕ) :
    PresMono s (completeCommand s id) := by
  unfold completeCommand
  split
  · split
    · exact presMono_refl s
    · unfold runPostExecute
      split
      · unfold radiancePostExecute
        lift_lets
        extract_lets commands s1
        split
        · exact presMono_of_fields (fun k => by cases k <;> rfl)
        · exact presMono_of_fields (fun k => by cases k <;> rfl)
      · unfold convolutionPostExecute
        lift_lets
        extract_lets index s1
        split
        · exact presMono_of_fields (fun k => by cases k <;> rfl)
        · exact presMono_of_fields (fun k => by cases k <;> rfl)
      · exact presMono_of_fields (fun k => by cases k <;> rfl)
  · exact presMono_refl s

theorem presMono_sequencerDispatch (s : ManagerState) (fs : FrameState) :
    PresMono s (sequencerDispatch s fs).1 := by
  unfold sequencerDispatch
  split
  · exact presMono_trans (presMono_updateRadianceMap s)
      (presMono_of_fields (fun k => by cases k <;> rfl))
  · exact presMono_trans (presMono_updateSpecularMaps s)
      (presMono_of_fields (fun k => by cases k <;> rfl))
  · exact presMono_trans (presMono_updateIrradianceResources s)
      (presMono_of_fields (fun k => by cases k <;> rfl))
  · exact presMono_refl s
  · exact presMono_trans
      (presMono_updateSphericalHarmonicCoefficients s fs.readPixelsData)
      (presMono_of_fields (fun k => by cases k <;> rfl))
  · exact presMono_refl s

theorem presMono_update (s : ManagerState) (fs : FrameState) :
    PresMono s (update s fs).1 := by
  rw [update_eq_dispatch]
  split
  · exact presMono_trans (presMono_checkTimeDrift s fs.time)
      (presMono_sequencerDispatch _ fs)
  · exact presMono_refl s

theorem presMono_step (s : ManagerState) (op : Op) : PresMono s (step s op) := by
  cases op with
  | updateFrame fs => exact presMono_update s fs
  | complete id => exact presMono_completeCommand s id
  | setPos v => exact presMono_setPosition s v

theorem presMono_run (s : ManagerState) (ops : List Op) :
    PresMono s (run s ops) := by
  induction ops generalizing s with
  | nil => exact presMono_refl s
  | cons b bs ih => exact presMono_trans (presMono_step s b) (ih (step s b))

/-- C5: coefficient extraction writes, for raster index i = 0..8 (the canonical
order L0,0; L1,−1; L1,0; L1,1; L2,−2; L2,−1; L2,0; L2,1; L2,2), the first three
channels of texel i (`Cartesian3.unpack(data, 4 i)`) into coefficient slot i; and
along every lifetime of a constructed manager the coefficient array has length 9
at all times. -/
theorem coefficients_extraction (s : ManagerState) (data : ℕ → ℚ)
    (h9 : s.sphericalHarmonicCoefficients.length = 9) :
    (updateSphericalHarmonicCoefficients s data).sphericalHarmonicCoefficients =
      (List.range 9).map (fun i => some (unpackCartesian3 data (i * 4))) ∧
    (∀ N ops,
      ((run (initialState N) ops).sphericalHarmonicCoefficients).length = 9) := by
  constructor
  · obtain ⟨l, hl⟩ : ∃ l, s.sphericalHarmonicCoefficients = l := ⟨_, rfl⟩
    rw [hl] at h9
    unfold updateSphericalHarmonicCoefficients
    rw [hl]
    rcases l with _ | ⟨a0, l⟩
    · simp at h9
    rcases l with _ | ⟨a1, l⟩
    · simp at h9
    rcases l with _ | ⟨a2, l⟩
    · simp at h9
    rcases l with _ | ⟨a3, l⟩
    · simp at h9
    rcases l with _ | ⟨a4, l⟩
    · simp at h9
    rcases l with _ | ⟨a5, l⟩
    · simp at h9
    rcases l with _ | ⟨a6, l⟩
    · simp at h9
    rcases l with _ | ⟨a7, l⟩
    · simp at h9
    rcases l with _ | ⟨a8, l⟩
    · simp at h9
    rcases l with _ | ⟨a9, l⟩
    · rfl
    · simp at h9
  · intro N ops
    exact (Inv_run (initialState N) ops (Inv_initialState N)).2.1

/-- Witness for C5 at a fresh manager and the readback data `i ↦ i`. -/
theorem coefficients_extraction_witness :
    (initialState 2).sphericalHarmonicCoefficients.length = 9 ∧
    (updateSphericalHarmonicCoefficients (initialState 2)
        (fun i => (i : ℚ))).sphericalHarmonicCoefficients =
      (List.range 9).map
        (fun i => some (unpackCartesian3 (fun i => (i : ℚ)) (i * 4))) :=
  ⟨rfl, (coefficients_extraction (initialState 2) (fun i => (i : ℚ)) rfl).1⟩

/-- C8 (amended): every definedness-guarded GPU resource — the radiance cube map,
the 6 face textures, the irradiance texture, the cached shader sources, the
convolution program and the vertex geometry — is allocated at most once per
manager lifetime; resource presence only ever grows along a lifetime (nothing is
released before teardown); and teardown (destroy) releases the cube map and
every texture.  (The specular mip-chain textures are the exception to
at-most-once allocation; see the counterexample.) -/
theorem guarded_resources_allocated_once (N : ℕ) (ops extra : List Op)
    (k : ResourceKind) (s : ManagerState) :
    (guarded k = true → (run (initialState N) ops).allocLog.count k ≤ 1) ∧
    PresMono (run (initialState N) ops) (run (initialState N) (ops ++ extra)) ∧
    (destroy s).radianceCubeMap = false ∧
    (destroy s).irradianceMapTexture = false ∧
    ((destroy s).radianceMapTextures.all fun b => b = false) = true ∧
    ((destroy s).specularMapTextures.all fun b => b = false) = true := by
  have hallfalse : ∀ (l : List Bool),
      ((l.map fun _ => false).all fun b => b = false) = true := by
    intro l
    simp [List.all_eq_true, List.mem_map]
  refine ⟨?_, ?_, rfl, rfl, ?_, ?_⟩
  · intro hg
    have h := (Inv_run (initialState N) ops (Inv_initialState N)).2.2 k hg
    rw [h]
    split
    · exact Nat.le_refl 1
    · exact Nat.zero_le 1
  · rw [show run (initialState N) (ops ++ extra)
        = run (run (initialState N) ops) extra from List.foldl_append _ _ _ _]
    exact presMono_run (run (initialState N) ops) extra
  · exact hallfalse s.radianceMapTextures
  · exact hallfalse s.specularMapTextures

/-- Witness for C8 on a concrete two-frame lifetime. -/
theorem guarded_resources_allocated_once_witness :
    guarded ResourceKind.radianceCubeMap = true ∧
    (run (initialState 2) [Op.setPos (some examplePosition),
        Op.updateFrame exampleFrame]).allocLog.count ResourceKind.radianceCubeMap
      ≤ 1 :=
  ⟨rfl,
    (guarded_resources_allocated_once 2
      [Op.setPos (some examplePosition), Op.updateFrame exampleFrame] []
      ResourceKind.radianceCubeMap (initialState 2)).1 rfl⟩

/-- A lifetime of the 2-mip-level manager spanning two invalidation cycles:
radiance setup and completion, convolution setup, then a position change
(invalidation), radiance redo, and a second convolution setup. -/
def doubleAllocOps : List Op :=
  [Op.updateFrame exampleFrame] ++ (List.range 6).map Op.complete ++
    [Op.updateFrame exampleFrame, Op.setPos (some examplePositionB),
      Op.updateFrame exampleFrame] ++
    (List.range 6).map (fun i => Op.complete (12 + i)) ++
    [Op.updateFrame exampleFrame]

set_option maxRecDepth 200000 in
/-- C8 counterexample: the specular mip-chain textures are not allocated at most
once per manager lifetime — across two invalidation cycles, slot 0 of the chain
is allocated twice (`updateSpecularMaps` constructs a fresh texture into every
slot unconditionally on each convolution-stage setup). -/
theorem specular_texture_reallocated :
    (run exampleManager2 doubleAllocOps).allocLog.count
      (ResourceKind.specularMapTexture 0) = 2 := by
  with_unfolding_all rfl

theorem store_convFaceStep (N level : ℕ) (w hgt : ℚ) (acc : ManagerState × List ℕ)
    (f : ℕ) :
    (convFaceStep N level w hgt acc f).1.store = acc.1.store ++
      [{ kind := CmdKind.convolution level f,
         roughness := ((level : ℕ) : ℚ) / ((N : ℚ) - 1),
         outputWidth := w, outputHeight := hgt,
         persists := true, canceled := false }] := by
  have hVA : ∀ u : ManagerState,
      (if u.va then u
        else { u with va := true,
                      allocLog := u.allocLog ++ [ResourceKind.va] }).store = u.store := by
    intro u
    split
    · rfl
    · rfl
  have hSP : ∀ u : ManagerState,
      (if u.convolveSP then u
        else { u with convolveSP := true,
                      allocLog := u.allocLog ++ [ResourceKind.convolveSP] }).store
        = u.store := by
    intro u
    split
    · rfl
    · rfl
  unfold convFaceStep
  simp only [hVA, hSP]
  repeat' split
  all_goals rfl

theorem store_convFaceStep_foldl (N level : ℕ) (w hgt : ℚ) (bs : List ℕ) :
    ∀ acc : ManagerState × List ℕ,
      (bs.foldl (convFaceStep N level w hgt) acc).1.store = acc.1.store ++
        bs.map (fun f =>
          { kind := CmdKind.convolution level f,
            roughness := ((level : ℕ) : ℚ) / ((N : ℚ) - 1),
            outputWidth := w, outputHeight := hgt,
            persists := true, canceled := false }) := by
  induction bs with
  | nil => intro acc; simp
  | cons b bs ih =>
      intro acc
      rw [List.foldl_cons, ih, store_convFaceStep, List.map_cons,
        List.append_assoc]
      rfl

theorem store_convFaceLoop (N level : ℕ) (w hgt : ℚ) (acc : ManagerState × List ℕ) :
    (convFaceLoop N level w hgt acc).1.store = acc.1.store ++
      (List.range 6).map (fun f =>
        { kind := CmdKind.convolution level f,
          roughness := ((level : ℕ) : ℚ) / ((N : ℚ) - 1),
          outputWidth := w, outputHeight := hgt,
          persists := true, canceled := false }) := by
  unfold convFaceLoop
  exact store_convFaceStep_foldl N level w hgt (List.range 6) acc

theorem convLevelLoop_store_aux (N : ℕ) :
    ∀ (n : ℕ) (acc : (ManagerState × List ℕ) × ℚ × ℚ),
      ((List.range n).foldl (convLevelStep N) acc).1.1.store =
          acc.1.1.store ++ (List.range n).flatMap (fun li =>
            (List.range 6).map (fun f =>
              { kind := CmdKind.convolution (li + 1) f,
                roughness := ((li + 1 : ℕ) : ℚ) / ((N : ℚ) - 1),
                outputWidth := acc.2.1 / 2 ^ li, outputHeight := acc.2.2 / 2 ^ li,
                persists := true, canceled := false })) ∧
        ((List.range n).foldl (convLevelStep N) acc).2.1 = acc.2.1 / 2 ^ n ∧
        ((List.range n).foldl (convLevelStep N) acc).2.2 = acc.2.2 / 2 ^ n := by
  intro n
  induction n with
  | zero =>
      intro acc
      refine ⟨by simp, by simp, by simp⟩
  | succ n ih =>
      intro acc
      obtain ⟨ihs, ihw, ihh⟩ := ih acc
      rw [List.range_succ, List.foldl_append, List.foldl_cons, List.foldl_nil]
      refine ⟨?_, ?_, ?_⟩
      · have h1 : (convLevelStep N ((List.range n).foldl (convLevelStep N) acc) n).1.1.store
            = (convFaceLoop N (n + 1)
                ((List.range n).foldl (convLevelStep N) acc).2.1
                ((List.range n).foldl (convLevelStep N) acc).2.2
                ((List.range n).foldl (convLevelStep N) acc).1).1.store := rfl
        rw [h1, store_convFaceLoop, ihs, ihw, ihh]
        rw [List.flatMap_append, List.flatMap_cons, List.flatMap_nil,
          List.append_assoc, List.append_nil]
      · show (convLevelStep N ((List.range n).foldl (convLevelStep N) acc) n).2.1 = _
        unfold convLevelStep
        show ((List.range n).foldl (convLevelStep N) acc).2.1 / 2 = _
        rw [ihw, div_div, ← pow_succ]
      · show (convLevelStep N ((List.range n).foldl (convLevelStep N) acc) n).2.2 = _
        unfold convLevelStep
        show ((List.range n).foldl (convLevelStep N) acc).2.2 / 2 = _
        rw [ihh, div_div, ← pow_succ]

theorem flatMap_congr' {α β : Type} (l : List α) (f g : α → List β)
    (h : ∀ a, f a = g a) : l.flatMap f = l.flatMap g := by
  induction l with
  | nil => rfl
  | cons b bs ih => rw [List.flatMap_cons, List.flatMap_cons, h b, ih]

/-- The convolution-stage setup appends to the command heap exactly the batch
the spec describes: one command per level and face, with roughness
`level / (N − 1)` and output edge `base / 2 ^ level`. -/
theorem store_updateSpecularMaps (s : ManagerState) :
    (updateSpecularMaps s).1.store = s.store ++
      convBatchSpec s.mipmapLevels s.textureDimensions.1 s.textureDimensions.2 := by
  have h := (convLevelLoop_store_aux s.mipmapLevels (s.mipmapLevels - 1)
    (({ s with facesCopied := 0 }, []),
      s.textureDimensions.1 / 2, s.textureDimensions.2 / 2)).1
  unfold updateSpecularMaps convLevelLoop
  show ((List.range (s.mipmapLevels - 1)).foldl (convLevelStep s.mipmapLevels)
    (({ s with facesCopied := 0 }, []),
      s.textureDimensions.1 / 2, s.textureDimensions.2 / 2)).1.1.store = _
  rw [h]
  show s.store ++ _ = s.store ++ _
  rw [convBatchSpec]
  refine congrArg (s.store ++ ·) (flatMap_congr' _ _ _ ?_)
  intro li
  refine congrArg (List.map · (List.range 6)) (funext fun f => ?_)
  unfold convCmdSpec
  have hw : s.textureDimensions.1 / 2 / 2 ^ li = s.textureDimensions.1 / 2 ^ (li + 1) := by
    rw [div_div, ← pow_succ']
  have hh : s.textureDimensions.2 / 2 / 2 ^ li = s.textureDimensions.2 / 2 ^ (li + 1) := by
    rw [div_div, ← pow_succ']
  rw [hw, hh]

theorem filter_flatMap' {α β : Type} (l : List α) (g : α → List β) (p : β → Bool) :
    (l.flatMap g).filter p = l.flatMap (fun a => (g a).filter p) := by
  induction l with
  | nil => rfl
  | cons a l ih => rw [List.flatMap_cons, List.flatMap_cons, List.filter_append, ih]

theorem flatMap_range_nil {α : Type} :
    ∀ (n : ℕ) (g : ℕ → List α), (∀ i, i < n → g i = []) →
      (List.range n).flatMap g = [] := by
  intro n
  induction n with
  | zero => intro g _; rfl
  | succ n ih =>
      intro g h
      rw [List.range_succ, List.flatMap_append, List.flatMap_cons, List.flatMap_nil,
        List.append_nil, h n (Nat.lt_succ_self n), ih g (fun i hi => h i (by omega)),
        List.append_nil]

theorem flatMap_range_single {α : Type} :
    ∀ (n : ℕ) (g : ℕ → List α) (k : ℕ), k < n →
      (∀ i, i < n → i ≠ k → g i = []) → (List.range n).flatMap g = g k := by
  intro n
  induction n with
  | zero => intro g k hk _; omega
  | succ n ih =>
      intro g k hk hg
      rw [List.range_succ, List.flatMap_append, List.flatMap_cons, List.flatMap_nil,
        List.append_nil]
      by_cases hkn : k = n
      · subst hkn
        rw [flatMap_range_nil k g (fun i hi => hg i (by omega) (by omega))]
        rfl
      · rw [hg n (Nat.lt_succ_self n) (fun h => hkn h.symm), List.append_nil]
        exact ih g k (by omega) (fun i hi hik => hg i (by omega) hik)

theorem filter_conv_inner (N l f li : ℕ) (bW bH : ℚ) (hf : f < 6) :
    ((List.range 6).map (fun fi => convCmdSpec N (li + 1) fi bW bH)).filter
        (fun c => decide (c.kind = CmdKind.convolution l f))
      = if li + 1 = l then [convCmdSpec N l f bW bH] else [] := by
  have h6 : List.range 6 = [0, 1, 2, 3, 4, 5] := rfl
  by_cases h : li + 1 = l
  · subst h
    rw [h6, if_pos rfl]
    interval_cases f <;>
      simp [convCmdSpec, List.filter, CmdKind.convolution.injEq]
  · rw [h6, if_neg h]
    simp [convCmdSpec, List.filter, CmdKind.convolution.injEq, h]

theorem convBatchSpec_filter (N l f : ℕ) (bW bH : ℚ)
    (hl1 : 1 ≤ l) (hl2 : l < N) (hf : f < 6) :
    (convBatchSpec N bW bH).filter (fun c => decide (c.kind = CmdKind.convolution l f))
      = [convCmdSpec N l f bW bH] := by
  unfold convBatchSpec
  rw [filter_flatMap']
  rw [flatMap_congr' _ _
    (fun li => if li + 1 = l then [convCmdSpec N l f bW bH] else [])
    (fun li => filter_conv_inner N l f li bW bH hf)]
  rw [flatMap_range_single (N - 1) _ (l - 1) (by omega)
    (fun i hi hik => if_neg (by omega))]
  rw [if_pos (by omega)]

theorem convolutionPostExecute_threshold (s : ManagerState) (l f : ℕ)
    (hlen : s.specularMapTextures.length = (s.mipmapLevels - 1) * 6) :
    (s.facesCopied + 1 = (s.mipmapLevels - 1) * 6 →
      (convolutionPostExecute s l f).irradianceCommandDirty = true ∧
      (convolutionPostExecute s l f).radianceCubeMapSampler
        = SamplerKind.linearMipmapLinear) ∧
    (s.facesCopied + 1 ≠ (s.mipmapLevels - 1) * 6 →
      (convolutionPostExecute s l f).irradianceCommandDirty = s.irradianceCommandDirty ∧
      (convolutionPostExecute s l f).radianceCubeMapSampler
        = s.radianceCubeMapSampler) := by
  have hpe : convolutionPostExecute s l f =
      (if s.facesCopied + 1 = s.specularMapTextures.length then
        { s with
            convolutionComputeCommands :=
              s.convolutionComputeCommands.set ((l - 1) * 6 + f) none,
            facesCopied := s.facesCopied + 1,
            irradianceCommandDirty := true,
            radianceCubeMapSampler := SamplerKind.linearMipmapLinear }
      else
        { s with
            convolutionComputeCommands :=
              s.convolutionComputeCommands.set ((l - 1) * 6 + f) none,
            facesCopied := s.facesCopied + 1 }) := rfl
  constructor
  · intro h
    rw [hpe, if_pos (hlen ▸ h)]
    exact ⟨rfl, rfl⟩
  · intro h
    rw [hpe, if_neg (fun hc => h (hlen ▸ hc))]
    exact ⟨rfl, rfl⟩

/-- C4: the convolution stage appends to the command heap exactly the batch of
`(N − 1) × 6` tasks described by `convBatchSpec`; within that batch there is
exactly one command for each mip level `l ∈ [1, N − 1]` and face `f < 6`, and
it is `convCmdSpec N l f baseW baseH`, whose roughness is `l / (N − 1)` and
whose output edge lengths are `base / 2 ^ l`; and the completion callback flags
the irradiance stage and installs the trilinear sampler exactly when the
incremented copied-face count reaches the chain length `(N − 1) × 6`, leaving
both fields unchanged otherwise. -/
theorem specular_convolution_batch_and_threshold (s : ManagerState) (l f : ℕ)
    (hl1 : 1 ≤ l) (hl2 : l < s.mipmapLevels) (hf : f < 6)
    (hlen : s.specularMapTextures.length = (s.mipmapLevels - 1) * 6) :
    (updateSpecularMaps s).1.store =
        s.store ++ convBatchSpec s.mipmapLevels
          s.textureDimensions.1 s.textureDimensions.2 ∧
    (convBatchSpec s.mipmapLevels s.textureDimensions.1 s.textureDimensions.2).filter
        (fun c => decide (c.kind = CmdKind.convolution l f))
      = [convCmdSpec s.mipmapLevels l f
          s.textureDimensions.1 s.textureDimensions.2] ∧
    (s.facesCopied + 1 = (s.mipmapLevels - 1) * 6 →
      (convolutionPostExecute s l f).irradianceCommandDirty = true ∧
      (convolutionPostExecute s l f).radianceCubeMapSampler
        = SamplerKind.linearMipmapLinear) ∧
    (s.facesCopied + 1 ≠ (s.mipmapLevels - 1) * 6 →
      (convolutionPostExecute s l f).irradianceCommandDirty = s.irradianceCommandDirty ∧
      (convolutionPostExecute s l f).radianceCubeMapSampler
        = s.radianceCubeMapSampler) :=
  ⟨store_updateSpecularMaps s,
   convBatchSpec_filter s.mipmapLevels l f
     s.textureDimensions.1 s.textureDimensions.2 hl1 hl2 hf,
   (convolutionPostExecute_threshold s l f hlen).1,
   (convolutionPostExecute_threshold s l f hlen).2⟩

/-- Witness for C4 at the freshly constructed two-level manager, level 1,
face 0: the hypotheses hold and the conclusion follows by applying the
theorem. -/
theorem specular_convolution_batch_and_threshold_witness :
    (1 ≤ 1 ∧ 1 < (initialState 2).mipmapLevels ∧ 0 < 6 ∧
      (initialState 2).specularMapTextures.length
        = ((initialState 2).mipmapLevels - 1) * 6) ∧
    ((updateSpecularMaps (initialState 2)).1.store =
        (initialState 2).store ++ convBatchSpec (initialState 2).mipmapLevels
          (initialState 2).textureDimensions.1 (initialState 2).textureDimensions.2 ∧
    (convBatchSpec (initialState 2).mipmapLevels
        (initialState 2).textureDimensions.1
        (initialState 2).textureDimensions.2).filter
        (fun c => decide (c.kind = CmdKind.convolution 1 0))
      = [convCmdSpec (initialState 2).mipmapLevels 1 0
          (initialState 2).textureDimensions.1
          (initialState 2).textureDimensions.2] ∧
    ((initialState 2).facesCopied + 1 = ((initialState 2).mipmapLevels - 1) * 6 →
      (convolutionPostExecute (initialState 2) 1 0).irradianceCommandDirty = true ∧
      (convolutionPostExecute (initialState 2) 1 0).radianceCubeMapSampler
        = SamplerKind.linearMipmapLinear) ∧
    ((initialState 2).facesCopied + 1 ≠ ((initialState 2).mipmapLevels - 1) * 6 →
      (convolutionPostExecute (initialState 2) 1 0).irradianceCommandDirty
        = (initialState 2).irradianceCommandDirty ∧
      (convolutionPostExecute (initialState 2) 1 0).radianceCubeMapSampler
        = (initialState 2).radianceCubeMapSampler)) :=
  ⟨⟨by decide, by decide, by decide, by decide⟩,
   specular_convolution_batch_and_threshold (initialState 2) 1 0
     (by decide) (by decide) (by decide) (by decide)⟩

end DynamicEnvironmentMapManager
